import Mathlib

/-
Verification of the reconciliation and state-derivation engine of the
invoice automation program (invoice_automation.py) against its
natural-language specification.  The Python source is shallowly embedded:
dictionaries become structures, Python float arithmetic on the monetary
and duration values is modelled over the exact rationals, machine hashes
(hashlib.md5) are embedded by a full MD5 implementation over Nat bytes,
and the external collaborators (Stripe fetches, dateutil parsing,
strftime formatting) are passed in as explicit function parameters.
-/

/-! Basic string and list helpers mirroring Python primitives. -/

/-- Boolean test that the first list of characters is a prefix of the second. -/
def isPrefChars : List Char → List Char → Bool
  | [], _ => true
  | _ :: _, [] => false
  | a :: as, b :: bs => a == b && isPrefChars as bs

/-- Boolean substring test on character lists, needle first. -/
def containsChars (needle : List Char) : List Char → Bool
  | [] => isPrefChars needle []
  | b :: bs => isPrefChars needle (b :: bs) || containsChars needle bs

/-- Python substring operator: needle in hay. -/
def strIncludes (hay needle : String) : Bool :=
  containsChars needle.data hay.data

/-- Python expression pattern: needle in (opt or ""). -/
def pyIn (needle : String) (hay : Option String) : Bool :=
  strIncludes (hay.getD "") needle

/-- Python set.add modelled on an insertion-ordered duplicate-free list. -/
def setAdd (l : List String) (e : String) : List String :=
  if l.contains e then l else l ++ [e]

/-- Python dict assignment d[k] = v on an association list. -/
def dictSet (d : List (String × String)) (k v : String) : List (String × String) :=
  match d with
  | [] => [(k, v)]
  | (k1, v1) :: rest => if k1 == k then (k1, v) :: rest else (k1, v1) :: dictSet rest k v

/-- Python dict lookup d.get(k) on an association list. -/
def dictGet (d : List (String × String)) (k : String) : Option String :=
  (d.find? (fun p => p.1 == k)).map (fun p => p.2)

/-- First index of needle as a sublist of hay, counting from i. -/
def firstIndexAux (needle : List Char) : List Char → Nat → Option Nat
  | [], i => if isPrefChars needle [] then some i else none
  | c :: cs, i => if isPrefChars needle (c :: cs) then some i else firstIndexAux needle cs (i + 1)

/-- Python str.find, returning none when the needle does not occur. -/
def firstIndexOf (hay needle : List Char) : Option Nat :=
  firstIndexAux needle hay 0

/-- Absolute difference of two naturals, mirroring Python abs(a - b). -/
def natDist (a b : Nat) : Nat :=
  if a ≥ b then a - b else b - a

/-! Python string methods (strip, lower, replace), re-implemented over
    character lists so that all terms reduce inside the kernel. -/

/-- ASCII whitespace recognized by Python str.strip. -/
def isPyWhitespace (c : Char) : Bool :=
  c == ' ' || c == '\t' || c == '\n' || c == '\r' || c.toNat == 11 || c.toNat == 12

/-- Python str.strip: remove leading and trailing whitespace. -/
def pyStrip (s : String) : String :=
  String.mk (((s.data.dropWhile isPyWhitespace).reverse.dropWhile isPyWhitespace).reverse)

/-- Python str.lower restricted to ASCII letters. -/
def pyLower (s : String) : String :=
  String.mk (s.data.map Char.toLower)

/-- Remove every non-overlapping occurrence of a pattern, left to right,
    with a fuel argument bounding the recursion. -/
def removeAllFuel (pat : List Char) : Nat → List Char → List Char
  | 0, l => l
  | _ + 1, [] => []
  | n + 1, c :: cs =>
      if pat ≠ [] && isPrefChars pat (c :: cs) then
        removeAllFuel pat n ((c :: cs).drop pat.length)
      else c :: removeAllFuel pat n cs

/-- Python str.replace(pat, "") for a non-empty pattern. -/
def pyRemoveAll (s pat : String) : String :=
  String.mk (removeAllFuel pat.data s.data.length s.data)

/-! Model of Python float() on plain decimal literals, over exact rationals.
    Special float forms (inf, nan, underscore digit separators) are outside
    the modelled domain and yield none. -/

/-! Rational arithmetic wrappers built on mkRat so that every operation
    reduces inside the kernel; each is proved equal to the corresponding
    Mathlib operation below. -/

/-- Kernel-reducible multiplication on rationals. -/
def qMul (a b : ℚ) : ℚ :=
  mkRat (a.num * b.num) (a.den * b.den)

/-- Kernel-reducible addition on rationals. -/
def qAdd (a b : ℚ) : ℚ :=
  mkRat (a.num * (b.den : Int) + b.num * (a.den : Int)) (a.den * b.den)

/-- Kernel-reducible subtraction on rationals. -/
def qSub (a b : ℚ) : ℚ :=
  mkRat (a.num * (b.den : Int) - b.num * (a.den : Int)) (a.den * b.den)

/-- Kernel-reducible division on rationals (zero denominator yields zero). -/
def qDiv (a b : ℚ) : ℚ :=
  mkRat (a.num * (b.den : Int) * (if b.num < 0 then -1 else 1)) (a.den * b.num.natAbs)

/-- Convert a digit run to a natural number. -/
def digitsToNat (l : List Char) : Nat :=
  l.foldl (fun acc c => acc * 10 + (c.toNat - 48)) 0

/-- Parse an optionally signed decimal exponent tail, requiring end of input. -/
def parseExpTail : List Char → Option Int
  | [] => none
  | '+' :: r => if r ≠ [] ∧ r.all Char.isDigit then some (Int.ofNat (digitsToNat r)) else none
  | '-' :: r => if r ≠ [] ∧ r.all Char.isDigit then some (-(Int.ofNat (digitsToNat r))) else none
  | r => if r ≠ [] ∧ r.all Char.isDigit then some (Int.ofNat (digitsToNat r)) else none

/-- Apply a base-ten exponent to a rational. -/
def applyExp (q : ℚ) (e : Int) : ℚ :=
  if 0 ≤ e then qMul q ((10 ^ e.toNat : Nat) : ℚ)
  else qDiv q ((10 ^ (-e).toNat : Nat) : ℚ)

/-- Parse an unsigned decimal literal with optional fraction and exponent. -/
def parseUnsignedDec (l : List Char) : Option ℚ :=
  let ip := l.takeWhile Char.isDigit
  let r1 := l.drop ip.length
  match r1 with
  | '.' :: r2 =>
      let fp := r2.takeWhile Char.isDigit
      let r3 := r2.drop fp.length
      if ip = [] ∧ fp = [] then none
      else
        let base : ℚ := qAdd (digitsToNat ip : ℚ) (mkRat (digitsToNat fp) (10 ^ fp.length))
        match r3 with
        | [] => some base
        | 'e' :: r4 => (parseExpTail r4).map (applyExp base)
        | 'E' :: r4 => (parseExpTail r4).map (applyExp base)
        | _ => none
  | [] => if ip = [] then none else some (digitsToNat ip : ℚ)
  | 'e' :: r4 =>
      if ip = [] then none else (parseExpTail r4).map (applyExp (digitsToNat ip : ℚ))
  | 'E' :: r4 =>
      if ip = [] then none else (parseExpTail r4).map (applyExp (digitsToNat ip : ℚ))
  | _ => none

/-- Model of Python float() on a string: optional whitespace and sign, then
    a decimal literal; returns none where Python float() raises ValueError. -/
def pythonFloat (s : String) : Option ℚ :=
  match (pyStrip s).data with
  | '+' :: r => parseUnsignedDec r
  | '-' :: r => (parseUnsignedDec r).map (fun q => -q)
  | r => parseUnsignedDec r

/-! Model of Python round(x, 2) (round-half-to-even) and int(x) (truncation). -/

/-- Round a rational to the nearest integer, ties to even. -/
def roundHalfEven (q : ℚ) : ℤ :=
  let f := Int.floor q
  let r := qSub q (f : ℚ)
  if r < mkRat 1 2 then f
  else if mkRat 1 2 < r then f + 1
  else if f % 2 = 0 then f else f + 1

/-- Python round(x, 2) over exact rationals. -/
def pythonRound2 (q : ℚ) : ℚ :=
  mkRat (roundHalfEven (qMul q 100)) 100

/-- Python int(x): truncation toward zero. -/
def pythonIntTrunc (q : ℚ) : ℤ :=
  if 0 ≤ q then Int.floor q else Int.ceil q

/-! MD5 over byte lists (embedding of hashlib.md5), used by the
    meeting-identity hasher generate_meeting_id. -/

/-- Sine-derived MD5 round constants (RFC 1321 T table). -/
def md5K : List Nat :=
  [0xd76aa478, 0xe8c7b756, 0x242070db, 0xc1bdceee,
   0xf57c0faf, 0x4787c62a, 0xa8304613, 0xfd469501,
   0x698098d8, 0x8b44f7af, 0xffff5bb1, 0x895cd7be,
   0x6b901122, 0xfd987193, 0xa679438e, 0x49b40821,
   0xf61e2562, 0xc040b340, 0x265e5a51, 0xe9b6c7aa,
   0xd62f105d, 0x02441453, 0xd8a1e681, 0xe7d3fbc8,
   0x21e1cde6, 0xc33707d6, 0xf4d50d87, 0x455a14ed,
   0xa9e3e905, 0xfcefa3f8, 0x676f02d9, 0x8d2a4c8a,
   0xfffa3942, 0x8771f681, 0x6d9d6122, 0xfde5380c,
   0xa4beea44, 0x4bdecfa9, 0xf6bb4b60, 0xbebfbc70,
   0x289b7ec6, 0xeaa127fa, 0xd4ef3085, 0x04881d05,
   0xd9d4d039, 0xe6db99e5, 0x1fa27cf8, 0xc4ac5665,
   0xf4292244, 0x432aff97, 0xab9423a7, 0xfc93a039,
   0x655b59c3, 0x8f0ccc92, 0xffeff47d, 0x85845dd1,
   0x6fa87e4f, 0xfe2ce6e0, 0xa3014314, 0x4e0811a1,
   0xf7537e82, 0xbd3af235, 0x2ad7d2bb, 0xeb86d391]

/-- Per-round left-rotation amounts (RFC 1321). -/
def md5S : List Nat :=
  [7, 12, 17, 22, 7, 12, 17, 22, 7, 12, 17, 22, 7, 12, 17, 22,
   5, 9, 14, 20, 5, 9, 14, 20, 5, 9, 14, 20, 5, 9, 14, 20,
   4, 11, 16, 23, 4, 11, 16, 23, 4, 11, 16, 23, 4, 11, 16, 23,
   6, 10, 15, 21, 6, 10, 15, 21, 6, 10, 15, 21, 6, 10, 15, 21]

/-- The 32-bit all-ones mask. -/
def mask32 : Nat := 4294967295

/-- Left rotation of a 32-bit word. -/
def rotl32 (x n : Nat) : Nat :=
  (x * 2 ^ n % 4294967296) + x / 2 ^ (32 - n)

/-- Little-endian byte decomposition of a natural, fixed width. -/
def toBytesLE : Nat → Nat → List Nat
  | 0, _ => []
  | n + 1, x => (x % 256) :: toBytesLE n (x / 256)

/-- Group a byte list into little-endian 32-bit words. -/
def bytesToWordsLE : List Nat → List Nat
  | b0 :: b1 :: b2 :: b3 :: rest =>
      (b0 + 256 * b1 + 65536 * b2 + 16777216 * b3) :: bytesToWordsLE rest
  | _ => []

/-- MD5 padding: append 0x80, zero bytes to 56 mod 64, then the 64-bit
    little-endian bit length. -/
def md5Pad (msg : List Nat) : List Nat :=
  let len := msg.length
  let z := (56 + 64 - (len + 1) % 64) % 64
  msg ++ [0x80] ++ List.replicate z 0 ++ toBytesLE 8 (len * 8 % 2 ^ 64)

/-- Split a list into chunks of 64 elements, driven by a fuel argument. -/
def splitChunks64 : Nat → List Nat → List (List Nat)
  | 0, _ => []
  | _ + 1, [] => []
  | n + 1, l => l.take 64 :: splitChunks64 n (l.drop 64)

/-- One MD5 round on the state quadruple, with the message words of the block. -/
def md5Round (m : List Nat) (st : Nat × Nat × Nat × Nat) (i : Nat) : Nat × Nat × Nat × Nat :=
  let a := st.1
  let b := st.2.1
  let c := st.2.2.1
  let d := st.2.2.2
  let f :=
    if i < 16 then (b &&& c) ||| ((mask32 ^^^ b) &&& d)
    else if i < 32 then (d &&& b) ||| ((mask32 ^^^ d) &&& c)
    else if i < 48 then b ^^^ c ^^^ d
    else c ^^^ (b ||| (mask32 ^^^ d))
  let g :=
    if i < 16 then i
    else if i < 32 then (5 * i + 1) % 16
    else if i < 48 then (3 * i + 5) % 16
    else 7 * i % 16
  let tmp := (f + a + md5K.getD i 0 + m.getD g 0) % 4294967296
  (d, (b + rotl32 tmp (md5S.getD i 0)) % 4294967296, b, c)

/-- MD5 compression of one 64-byte block. -/
def md5Block (st : Nat × Nat × Nat × Nat) (block : List Nat) : Nat × Nat × Nat × Nat :=
  let m := bytesToWordsLE block
  let r := (List.range 64).foldl (md5Round m) st
  ((st.1 + r.1) % 4294967296,
   (st.2.1 + r.2.1) % 4294967296,
   (st.2.2.1 + r.2.2.1) % 4294967296,
   (st.2.2.2 + r.2.2.2) % 4294967296)

/-- MD5 digest of a byte list, as 16 bytes. -/
def md5Bytes (msg : List Nat) : List Nat :=
  let padded := md5Pad msg
  let st := (splitChunks64 padded.length padded).foldl md5Block
    (0x67452301, 0xefcdab89, 0x98badcfe, 0x10325476)
  toBytesLE 4 st.1 ++ toBytesLE 4 st.2.1 ++ toBytesLE 4 st.2.2.1 ++ toBytesLE 4 st.2.2.2

/-- Lower-case hex digit for a value below 16. -/
def hexDigitChar (n : Nat) : Char :=
  if n < 10 then Char.ofNat (48 + n) else Char.ofNat (87 + n)

/-- Two-character hex rendering of a byte. -/
def byteToHexChars (b : Nat) : List Char :=
  [hexDigitChar (b / 16 % 16), hexDigitChar (b % 16)]

/-- hashlib hexdigest of a byte list, as characters. -/
def md5HexChars (msg : List Nat) : List Char :=
  (md5Bytes msg).foldr (fun b acc => byteToHexChars b ++ acc) []

/-- UTF-8 encoding of one character, as bytes. -/
def utf8Encode (c : Char) : List Nat :=
  let n := c.toNat
  if n < 128 then [n]
  else if n < 2048 then [192 + n / 64, 128 + n % 64]
  else if n < 65536 then [224 + n / 4096, 128 + n / 64 % 64, 128 + n % 64]
  else [240 + n / 262144, 128 + n / 4096 % 64, 128 + n / 64 % 64, 128 + n % 64]

/-- Python str.encode(): UTF-8 bytes of a string. -/
def strToBytes (s : String) : List Nat :=
  s.data.foldr (fun c acc => utf8Encode c ++ acc) []

/-- Embedding of generate_meeting_id: the MD5 hex digest of
    email|start|summary truncated to its first 12 characters. -/
def generate_meeting_id (customer_email start_time summary : String) : String :=
  let meeting_string := customer_email ++ "|" ++ start_time ++ "|" ++ summary
  String.mk ((md5HexChars (strToBytes meeting_string)).take 12)

set_option maxRecDepth 100000

/-! Billing records and the invoice-status resolver
    (get_customer_invoices, check_meeting_invoice_status). -/

/-- One Stripe invoice line item: only the description is consulted. -/
structure InvoiceLineItem where
  description : Option String
  deriving DecidableEq, Repr

/-- A Stripe invoice: lifecycle status string and its line items. -/
structure StripeInvoice where
  status : String
  lines : List InvoiceLineItem
  deriving DecidableEq, Repr

/-- Embedding of get_customer_invoices: a fetch failure is caught and
    degrades to the empty invoice list. -/
def get_customer_invoices (fetchResult : Except String (List StripeInvoice)) :
    List StripeInvoice :=
  match fetchResult with
  | .ok l => l
  | .error _ => []

/-- Inner loop of check_meeting_invoice_status over one invoice: a line item
    whose description contains the meeting id returns drafted for a draft
    invoice and sent for open, paid or uncollectible; any other status falls
    through to the next line item. -/
def scanLines (meeting_id status : String) : List InvoiceLineItem → Option String
  | [] => none
  | item :: rest =>
      if pyIn meeting_id item.description then
        if status == "draft" then some "drafted"
        else if status == "open" || status == "paid" || status == "uncollectible" then
          some "sent"
        else scanLines meeting_id status rest
      else scanLines meeting_id status rest

/-- Outer loop of check_meeting_invoice_status over the invoice list. -/
def scanInvoices (meeting_id : String) : List StripeInvoice → String
  | [] => "not_invoiced"
  | inv :: rest =>
      match scanLines meeting_id inv.status inv.lines with
      | some r => r
      | none => scanInvoices meeting_id rest

/-- Embedding of check_meeting_invoice_status: fetch the customer invoices
    (with failure degrading to the empty list) and scan them for the id. -/
def check_meeting_invoice_status
    (fetch : String → Except String (List StripeInvoice))
    (customer_id meeting_id : String) : String :=
  scanInvoices meeting_id (get_customer_invoices (fetch customer_id))

/-! The duration parser (parse_duration_input). -/

/-- The try block of parse_duration_input on the cleaned string: Python
    float parse, then the range test raising the range message, with the
    parse failure carrying the cleaned string. -/
def durationFloatCheck (s : String) : Except String (Option ℚ) :=
  match pythonFloat s with
  | some duration =>
      if duration ≤ 0 || 24 < duration then
        .error "Duration must be between 0 and 24 hours"
      else .ok (some duration)
  | none => .error ("Unable to parse duration: " ++ s)

/-- Embedding of parse_duration_input: empty or whitespace-only input keeps
    the current value (ok none); otherwise the trimmed lower-cased input has
    every occurrence of hours, hour, hr, h removed in that order, is trimmed
    again and parsed as a Python float, with range (0, 24] enforced and with
    distinct range-violation and parse-failure messages. -/
def parse_duration_input (duration_str : String) : Except String (Option ℚ) :=
  if pyStrip duration_str = "" then .ok none
  else
    durationFloatCheck (pyStrip (pyRemoveAll (pyRemoveAll (pyRemoveAll (pyRemoveAll
      (pyLower (pyStrip duration_str)) "hours") "hour") "hr") "h"))

deriving instance DecidableEq for Except



/-! The email regex of extract_emails_from_text:
    \\b[A-Za-z0-9._%+-]+@[A-Za-z0-9.-]+\\.[A-Z|a-z]{2,}\\b
    embedded as a backtracking matcher specialised to this pattern.
    The class [A-Z|a-z] contains the letters and a literal pipe. -/

/-- Python word character for the boundary test, ASCII fragment. -/
def wordChar (c : Char) : Bool :=
  c.isAlpha || c.isDigit || c == '_'

/-- Characters of the local part of the email pattern. -/
def localChar (c : Char) : Bool :=
  c.isAlpha || c.isDigit || c == '.' || c == '_' || c == '%' || c == '+' || c == '-'

/-- Characters of the domain part of the email pattern. -/
def domainChar (c : Char) : Bool :=
  c.isAlpha || c.isDigit || c == '.' || c == '-'

/-- Characters of the top-level-domain part of the email pattern. -/
def tldChar (c : Char) : Bool :=
  c.isAlpha || c == '|'

/-- Word-character test on an optional character; absent counts non-word. -/
def wordCharOpt : Option Char → Bool
  | some c => wordChar c
  | none => false

/-- Word-boundary test between two adjacent positions. -/
def isBoundary (a b : Option Char) : Bool :=
  wordCharOpt a != wordCharOpt b

/-- The character following k characters of run ++ rest. -/
def nextCharAt (run rest : List Char) (k : Nat) : Option Char :=
  match run.get? k with
  | some c => some c
  | none => rest.head?

/-- Greedy-with-backtracking choice of the top-level-domain length: the
    largest length of at least 2 within the run of TLD characters such
    that a word boundary follows. -/
def firstTlen (tldRun tRest : List Char) : Nat → Option Nat
  | 0 => none
  | n + 1 =>
      if n + 1 < 2 then none
      else if isBoundary (tldRun.get? n) (nextCharAt tldRun tRest (n + 1)) then some (n + 1)
      else firstTlen tldRun tRest n

/-- Greedy-with-backtracking choice of the domain split: the largest
    domain length followed by a literal dot where a TLD match succeeds;
    returns the matched characters and the remaining input. -/
def tryDlen (loc dom r3 : List Char) : Nat → Option (List Char × List Char)
  | 0 => none
  | d + 1 =>
      if dom.get? (d + 1) == some '.' then
        let tail := dom.drop (d + 2) ++ r3
        let tldRun := tail.takeWhile tldChar
        let tRest := tail.drop tldRun.length
        match firstTlen tldRun tRest tldRun.length with
        | some tlen =>
            some (loc ++ '@' :: (dom.take (d + 1) ++ '.' :: tldRun.take tlen),
                  tldRun.drop tlen ++ tRest)
        | none => tryDlen loc dom r3 d
      else tryDlen loc dom r3 d

/-- Attempt to match the email pattern at the head of l, where prev is
    the character before the current position. -/
def matchEmailAt (prev : Option Char) (l : List Char) : Option (List Char × List Char) :=
  if !isBoundary prev l.head? then none
  else
    let loc := l.takeWhile localChar
    let r1 := l.drop loc.length
    if loc.isEmpty then none
    else
      match r1 with
      | '@' :: r2 =>
          let dom := r2.takeWhile domainChar
          let r3 := r2.drop dom.length
          if dom.length = 0 then none
          else tryDlen loc dom r3 (dom.length - 1)
      | _ => none

/-- re.findall scan: attempt a match at every position, resuming after
    each match; fuel bounded by the input length. -/
def scanEmailsFuel : Nat → Option Char → List Char → List String
  | 0, _, _ => []
  | _ + 1, _, [] => []
  | n + 1, prev, c :: cs =>
      match matchEmailAt prev (c :: cs) with
      | some (m, rest) => String.mk m :: scanEmailsFuel n m.getLast? rest
      | none => scanEmailsFuel n (some c) cs

/-- All matches of the email pattern in a text, left to right. -/
def findallEmails (l : List Char) : List String :=
  scanEmailsFuel l.length none l

/-! The customer roster and the participant extractor. -/

/-- A Stripe customer as assembled by get_stripe_customers. -/
structure CustomerInfo where
  id : String
  email : String
  name : String
  created : Int
  metadata : List (String × String)
  deriving DecidableEq, Repr

/-- Embedding of extract_emails_from_text: regex scan, lower-case, deduped
    set modelled as an insertion-ordered duplicate-free list. -/
def extract_emails_from_text (text : String) : List String :=
  if text = "" then []
  else (findallEmails text.data).foldl (fun acc e => setAdd acc (pyLower e)) []

/-- Embedding of find_customer_mentions_in_text: for every customer with a
    usable name, if both lower-cased name and email occur in the lower-cased
    text within 100 characters of each other, the email is collected. -/
def find_customer_mentions_in_text (text : String) (customers : List CustomerInfo) :
    List String :=
  if text = "" then []
  else
    let text_lower := (pyLower text).data
    customers.foldl (fun acc customer =>
      let customer_name := pyLower customer.name
      let customer_email := pyLower customer.email
      if customer_name == "" || customer_name == "unknown" then acc
      else if containsChars customer_name.data text_lower &&
              containsChars customer_email.data text_lower then
        match firstIndexOf text_lower customer_name.data,
              firstIndexOf text_lower customer_email.data with
        | some name_pos, some email_pos =>
            if natDist name_pos email_pos < 100 then setAdd acc customer_email else acc
        | _, _ => acc
      else acc) []

/-! Calendar events and derived meetings. -/

/-- The start or end field of a Google Calendar event. -/
structure GEventTime where
  dateTime : Option String
  date : Option String
  deriving DecidableEq, Repr

/-- An attendee entry of a calendar event. -/
structure GAttendee where
  email : Option String
  deriving DecidableEq, Repr

/-- The organizer entry of a calendar event. -/
structure GOrganizer where
  email : Option String
  deriving DecidableEq, Repr

/-- A Google Calendar event; finish embeds the Python field named end. -/
structure GEvent where
  start : Option GEventTime
  finish : Option GEventTime
  summary : Option String
  attendees : List GAttendee
  organizer : Option GOrganizer
  description : Option String
  deriving DecidableEq, Repr

/-- A reconciled meeting record (the meeting_info dictionary). -/
structure Meeting where
  id : String
  summary : String
  date : String
  time : String
  duration : ℚ
  start_time : String
  end_time : String
  invoice_status : String
  selected : Bool
  synopsis : String
  edited_start_time : Option String
  edited_duration : Option ℚ
  custom_rate : Option ℚ
  is_edited : Bool
  detection_source : String
  is_manually_assigned : Bool
  deriving DecidableEq, Repr

/-- An unassociated meeting record. -/
structure UnassociatedMeeting where
  id : String
  summary : String
  date : String
  time : String
  duration : ℚ
  start_time : String
  end_time : String
  attendees : List String
  description : String
  selected : Bool
  synopsis : String
  assigned_customer : Option CustomerInfo
  is_manually_assigned : Bool
  deriving DecidableEq, Repr

/-- One entry of the customers_with_meetings dictionary. -/
structure CustomerData where
  customer : CustomerInfo
  meetings : List Meeting
  deriving DecidableEq, Repr

/-- The reconciliation result: the insertion-ordered customer dictionary
    and the unassociated list. -/
structure RecState where
  customers_with_meetings : List (String × CustomerData)
  unassociated_meetings : List UnassociatedMeeting
  deriving DecidableEq, Repr

/-- External collaborators, passed in explicitly: dateutil timestamp
    parsing (as seconds), the combined strftime date/time formatting
    (none encodes the caught exception), and the Stripe invoice fetch. -/
structure Externals where
  parseTs : String → Option ℚ
  fmtDT : String → Option (String × String)
  fetch : String → Except String (List StripeInvoice)

/-- event.get(start, {}).get(dateTime, event.get(start, {}).get(date)). -/
def eventStartTime (ev : GEvent) : Option String :=
  match ev.start.bind GEventTime.dateTime with
  | some s => some s
  | none => ev.start.bind GEventTime.date

/-- The same access pattern for the event end field. -/
def eventEndTime (ev : GEvent) : Option String :=
  match ev.finish.bind GEventTime.dateTime with
  | some s => some s
  | none => ev.finish.bind GEventTime.date

/-- Python falsiness of an optional string: absent or empty. -/
def falsyOptStr (o : Option String) : Bool :=
  match o with
  | none => true
  | some s => s == ""

/-- Embedding of calculate_meeting_duration: duration in hours rounded to
    two decimals, 1.0 when either timestamp fails to parse. -/
def calculate_meeting_duration (parseTs : String → Option ℚ)
    (start_time end_time : String) : ℚ :=
  match parseTs start_time, parseTs end_time with
  | some s, some e => pythonRound2 (qDiv (qSub e s) 3600)
  | _, _ => 1

/-- Display date and time of a meeting: strftime results, or the fallback
    of the first ten characters and Unknown time when parsing fails. -/
def meetingDateTimeOf (fmtDT : String → Option (String × String))
    (start_time : String) : String × String :=
  match fmtDT start_time with
  | some dt => dt
  | none =>
      (if start_time.length ≥ 10 then String.mk (start_time.data.take 10) else start_time,
       "Unknown time")

/-- Channel 1 of the participant extractor: attendee emails then the
    organizer email, lower-cased, with provenance tags. -/
def extractChannel1 (ev : GEvent) : List String × List (String × String) :=
  let afterAttendees := ev.attendees.foldl
    (fun (acc : List String × List (String × String)) attendee =>
      match attendee.email with
      | some e =>
          if e == "" then acc
          else
            let email := pyLower e
            (setAdd acc.1 email, dictSet acc.2 email "attendee")
      | none => acc) ([], [])
  match ev.organizer.bind GOrganizer.email with
  | some e =>
      if e == "" then afterAttendees
      else
        let email := pyLower e
        (setAdd afterAttendees.1 email, dictSet afterAttendees.2 email "organizer")
  | none => afterAttendees

/-- The description-channel step: an email found in the description is
    added, tagged description, only when not already a participant. -/
def descStep (acc : List String × List (String × String)) (email : String) :
    List String × List (String × String) :=
  if acc.1.contains email then acc
  else (acc.1 ++ [email], dictSet acc.2 email "description")

/-- Python set.union modelled on insertion-ordered lists. -/
def setUnion (a b : List String) : List String :=
  b.foldl setAdd a

/-- The participant extractor of find_customers_with_meetings, lines
    446-477: channel 1 from the event fields, then the free-text channels
    over the description, guarded on prior membership. -/
def extractParticipants (ev : GEvent) (customers : List CustomerInfo) :
    List String × List (String × String) :=
  if ev.description.getD "" = "" then extractChannel1 ev
  else
    (setUnion (extract_emails_from_text (ev.description.getD ""))
        (find_customer_mentions_in_text (ev.description.getD "") customers)).foldl
      descStep (extractChannel1 ev)

/-- The customer_by_email dictionary: in a Python dict comprehension the
    last customer with a given email wins. -/
def customerByEmail (customers : List CustomerInfo) (email : String) : Option CustomerInfo :=
  customers.reverse.find? (fun c => c.email == email)

/-- The meeting_info record constructed for a matched participant. -/
def meetingInfoOf (meeting_id summary meeting_date meeting_time : String) (duration : ℚ)
    (start_time end_time invoice_status : String)
    (detection_sources : List (String × String)) (email : String) : Meeting :=
  { id := meeting_id
    summary := summary
    date := meeting_date
    time := meeting_time
    duration := duration
    start_time := start_time
    end_time := end_time
    invoice_status := invoice_status
    selected := invoice_status == "not_invoiced"
    synopsis := ""
    edited_start_time := none
    edited_duration := none
    custom_rate := none
    is_edited := false
    detection_source := (dictGet detection_sources email).getD "unknown"
    is_manually_assigned := false }

/-- Append a meeting to a customer entry of the dictionary, creating the
    entry at the end when absent. -/
def addMeeting (cwm : List (String × CustomerData)) (customer_id : String)
    (customer : CustomerInfo) (mi : Meeting) : List (String × CustomerData) :=
  match cwm with
  | [] => [(customer_id, ⟨customer, [mi]⟩)]
  | (k, d) :: rest =>
      if k == customer_id then (k, ⟨d.customer, d.meetings ++ [mi]⟩) :: rest
      else (k, d) :: addMeeting rest customer_id customer mi

/-- The per-event participant-matching loop: each participant email that
    matches a customer produces one Meeting with freshly resolved invoice
    status; the flag records whether any customer was found. -/
def matchParticipants (ext : Externals) (customers : List CustomerInfo)
    (summary meeting_date meeting_time : String) (duration : ℚ)
    (start_time end_time : String) (detection_sources : List (String × String))
    (emails : List String) (cwm0 : List (String × CustomerData)) :
    List (String × CustomerData) × Bool :=
  emails.foldl (fun (acc : List (String × CustomerData) × Bool) email =>
    match customerByEmail customers email with
    | some customer =>
        let meeting_id := generate_meeting_id email start_time summary
        let invoice_status := check_meeting_invoice_status ext.fetch customer.id meeting_id
        let mi := meetingInfoOf meeting_id summary meeting_date meeting_time duration
          start_time end_time invoice_status detection_sources email
        (addMeeting acc.1 customer.id customer mi, true)
    | none => acc) (cwm0, false)

/-- The per-event body of find_customers_with_meetings: events lacking a
    truthy start or end timestamp are skipped whole; otherwise participants
    are matched, and with include_all_meetings an unmatched event becomes
    an UnassociatedMeeting. -/
def processEvent (ext : Externals) (customers : List CustomerInfo)
    (include_all_meetings : Bool) (state : RecState) (ev : GEvent) : RecState :=
  let summary := ev.summary.getD "Meeting"
  match eventStartTime ev, eventEndTime ev with
  | some st, some et =>
      if st == "" || et == "" then state
      else
        let duration := calculate_meeting_duration ext.parseTs st et
        let dt := meetingDateTimeOf ext.fmtDT st
        let parts := extractParticipants ev customers
        let r := matchParticipants ext customers summary dt.1 dt.2 duration st et
          parts.2 parts.1 state.customers_with_meetings
        if !r.2 && include_all_meetings then
          let meeting_id := generate_meeting_id "unassociated" st summary
          let description := ev.description.getD ""
          { customers_with_meetings := r.1
            unassociated_meetings := state.unassociated_meetings ++
              [{ id := meeting_id
                 summary := summary
                 date := dt.1
                 time := dt.2
                 duration := duration
                 start_time := st
                 end_time := et
                 attendees := parts.1
                 description :=
                   if description == "" then "" else String.mk (description.data.take 200)
                 selected := false
                 synopsis := ""
                 assigned_customer := none
                 is_manually_assigned := false }] }
        else { customers_with_meetings := r.1
               unassociated_meetings := state.unassociated_meetings }
  | _, _ => state

/-- Embedding of find_customers_with_meetings: fold the per-event body
    over the event list starting from the empty state. -/
def find_customers_with_meetings (ext : Externals) (customers : List CustomerInfo)
    (events : List GEvent) (include_all_meetings : Bool) : RecState :=
  events.foldl (processEvent ext customers include_all_meetings) ⟨[], []⟩

/-! The interactive selection commands of display_meetings_interactive. -/

/-- Toggle the meeting at an index: rejected (state unchanged) unless the
    meeting status is not_invoiced. -/
def toggleAt : List Meeting → Nat → List Meeting
  | [], _ => []
  | m :: rest, 0 =>
      (if m.invoice_status != "not_invoiced" then m
       else { m with selected := !m.selected }) :: rest
  | m :: rest, n + 1 => m :: toggleAt rest n

/-- The selection commands of the claim: toggle by meeting number (resolved
    through meeting_map to a customer id and index), select all uninvoiced,
    deselect all. -/
inductive UserCommand where
  | toggle (customer_id : String) (idx : Nat)
  | selectAllUninvoiced
  | deselectAll
  deriving DecidableEq, Repr

/-- Apply one selection command to the customer dictionary. -/
def applyCommand (cwm : List (String × CustomerData)) :
    UserCommand → List (String × CustomerData)
  | .toggle cid idx =>
      cwm.map (fun p =>
        if p.1 == cid then (p.1, ⟨p.2.customer, toggleAt p.2.meetings idx⟩) else p)
  | .selectAllUninvoiced =>
      cwm.map (fun p => (p.1, ⟨p.2.customer, p.2.meetings.map (fun m =>
        if m.invoice_status == "not_invoiced" then { m with selected := true } else m)⟩))
  | .deselectAll =>
      cwm.map (fun p => (p.1, ⟨p.2.customer, p.2.meetings.map
        (fun m => { m with selected := false })⟩))

/-! The assign command. -/

/-- Replace the element at an index of a list, when present. -/
def listSet {α : Type} : List α → Nat → α → List α
  | [], _, _ => []
  | _ :: rest, 0, a => a :: rest
  | x :: rest, n + 1, a => x :: listSet rest n a

/-- The customer_meeting record built by the assign command from an
    unassociated meeting: fresh not_invoiced status, auto-selected,
    manually assigned. -/
def mkAssignedMeeting (u : UnassociatedMeeting) : Meeting :=
  { id := u.id
    summary := u.summary
    date := u.date
    time := u.time
    duration := u.duration
    start_time := u.start_time
    end_time := u.end_time
    invoice_status := "not_invoiced"
    selected := true
    synopsis := u.synopsis
    edited_start_time := none
    edited_duration := none
    custom_rate := none
    is_edited := false
    detection_source := "manual_assignment"
    is_manually_assigned := true }

/-- Embedding of the assign branch of display_meetings_interactive: with a
    valid unassociated index and a customer matching the given lower-cased
    email, mark the unassociated entry assigned and append the converted
    meeting to that customer; otherwise the state is unchanged. -/
def applyAssign (state : RecState) (uidx : Nat) (customer_email : String)
    (all_customers : List CustomerInfo) : RecState :=
  match state.unassociated_meetings.get? uidx with
  | none => state
  | some meeting =>
      match all_customers.find? (fun c => pyLower c.email == customer_email) with
      | none => state
      | some customer_found =>
          let updated := { meeting with
            assigned_customer := some customer_found
            is_manually_assigned := true }
          { customers_with_meetings :=
              addMeeting state.customers_with_meetings customer_found.id customer_found
                (mkAssignedMeeting meeting)
            unassociated_meetings := listSet state.unassociated_meetings uidx updated }

/-- Lookup of a customer entry in the dictionary. -/
def lookupCwm (cwm : List (String × CustomerData)) (customer_id : String) :
    Option CustomerData :=
  (cwm.find? (fun p => p.1 == customer_id)).map (fun p => p.2)

/-! The override-merge calculator of the spec (effective values and
    amount) and the three amount computations of the source. -/

/-- effective_duration of the spec: the edited duration when set, else the
    base duration. -/
def effective_duration (m : Meeting) : ℚ :=
  m.edited_duration.getD m.duration

/-- effective_rate of the spec: the custom rate when set, else the
    customer default rate. -/
def effective_rate (m : Meeting) (customer_default_rate : ℚ) : ℚ :=
  m.custom_rate.getD customer_default_rate

/-- amount of the spec: effective duration times effective rate. -/
def amount (m : Meeting) (customer_default_rate : ℚ) : ℚ :=
  qMul (effective_duration m) (effective_rate m customer_default_rate)

/-- The amount shown in the interactive listing (lines 687-695). -/
def displayAmount (meeting : Meeting) (hourly_rate : ℚ) : ℚ :=
  let display_duration :=
    match meeting.edited_duration with
    | some d => d
    | none => meeting.duration
  let rate_to_use :=
    match meeting.custom_rate with
    | some r => r
    | none => hourly_rate
  qMul display_duration rate_to_use

/-- The per-meeting amount of the confirmation totals (lines 1084-1087). -/
def confirmationAmount (m : Meeting) (hourly_rate : ℚ) : ℚ :=
  let duration :=
    match m.edited_duration with
    | some d => d
    | none => m.duration
  let rate :=
    match m.custom_rate with
    | some r => r
    | none => hourly_rate
  qMul duration rate

/-- The line-item amount of create_draft_invoice (lines 1146-1150). -/
def lineItemAmount (m : Meeting) (hourly_rate : ℚ) : ℚ :=
  let duration :=
    match m.edited_duration with
    | some d => d
    | none => m.duration
  let rate :=
    match m.custom_rate with
    | some r => r
    | none => hourly_rate
  qMul duration rate

/-- The integer cents transmitted by create_draft_invoice, line 1165:
    int(amount * 100), Python truncation toward zero. -/
def lineItemCents (m : Meeting) (hourly_rate : ℚ) : ℤ :=
  pythonIntTrunc (qMul (lineItemAmount m hourly_rate) 100)

/-- Modelled from the spec: rounding a major-unit amount half-up to the
    nearest minor unit (cent). -/
def roundHalfUpCents (amountMajor : ℚ) : ℤ :=
  Int.floor (qAdd (qMul amountMajor 100) (mkRat 1 2))

/-! Spec-side readings of the invoice-status resolution, for claim C1. -/

/-- The parent status of the first line item whose description contains the
    identifier, scanning records then their line items in order. -/
def firstMatchStatus (meeting_id : String) : List StripeInvoice → Option String
  | [] => none
  | inv :: rest =>
      if inv.lines.any (fun item => pyIn meeting_id item.description) then some inv.status
      else firstMatchStatus meeting_id rest

/-- The statuses on which the source resolver actually decides. -/
def decisive (status : String) : Bool :=
  status == "draft" || status == "open" || status == "paid" || status == "uncollectible"

/-- The amended claim: the first line item containing the identifier whose
    parent record status is draft, open, paid or uncollectible determines
    the result; matching line items under records in any other state are
    skipped; with no such line item the result is not_invoiced. -/
def scanInvoicesAmendedSpec (meeting_id : String) : List StripeInvoice → String
  | [] => "not_invoiced"
  | inv :: rest =>
      if decisive inv.status && inv.lines.any (fun item => pyIn meeting_id item.description) then
        if inv.status == "draft" then "drafted" else "sent"
      else scanInvoicesAmendedSpec meeting_id rest

/-! Spec-side readings of the duration parser, for claim C8. -/

/-- Drop pat from the end of l when it is a suffix. -/
def dropSuffixIf (l pat : List Char) : Option (List Char) :=
  if isPrefChars pat.reverse l.reverse then some (l.take (l.length - pat.length)) else none

/-- Longest-match-first suffix stripping named by the claim. -/
def stripDurationSuffix (l : List Char) : List Char :=
  match dropSuffixIf l "hours".data with
  | some r => r
  | none =>
      match dropSuffixIf l "hour".data with
      | some r => r
      | none =>
          match dropSuffixIf l "hr".data with
          | some r => r
          | none =>
              match dropSuffixIf l "h".data with
              | some r => r
              | none => l

/-- The decimal parse and range test exactly as the claim words them:
    accepting exactly the range (0, 24]. -/
def durationFloatCheckSpec (s : String) : Except String (Option ℚ) :=
  match pythonFloat s with
  | some d =>
      if 0 < d ∧ d ≤ 24 then .ok (some d)
      else .error "Duration must be between 0 and 24 hours"
  | none => .error ("Unable to parse duration: " ++ s)

/-- The claim as written: strip whitespace and one longest-match suffix
    among hours, hour, hr, h, then parse the remainder as a decimal with
    range (0, 24], with distinct range and parse failure messages. -/
def parse_duration_spec_claim (input : String) : Except String (Option ℚ) :=
  if pyStrip input = "" then .ok none
  else
    durationFloatCheckSpec (pyStrip (String.mk (stripDurationSuffix
      (pyLower (pyStrip input)).data)))

/-- The claim amended: every occurrence of hours, hour, hr, h anywhere in
    the lower-cased trimmed input is removed (longest pattern first), not
    only as a suffix, before decimal parsing with range (0, 24]. -/
def parse_duration_spec_amended (input : String) : Except String (Option ℚ) :=
  if pyStrip input = "" then .ok none
  else
    durationFloatCheckSpec (pyStrip (pyRemoveAll (pyRemoveAll (pyRemoveAll (pyRemoveAll
      (pyLower (pyStrip input)) "hours") "hour") "hr") "h"))

/-! Concrete inputs used by scenario conjuncts, witnesses and
    counterexamples. -/

/-- Scenario meeting of claim C2: base duration 1.0, edited duration 2.5,
    custom rate 300. -/
def meetingC2 : Meeting :=
  { id := "m1"
    summary := "Strategy Session"
    date := "2025-01-15"
    time := "02:00 PM"
    duration := 1
    start_time := "2025-01-15T14:00:00"
    end_time := "2025-01-15T15:00:00"
    invoice_status := "not_invoiced"
    selected := true
    synopsis := ""
    edited_start_time := none
    edited_duration := some (mkRat 5 2)
    custom_rate := some 300
    is_edited := true
    detection_source := "attendee"
    is_manually_assigned := false }

/-- Counterexample meeting of claim C5: half an hour at 99.99 per hour,
    so the exact amount is 49.995 and the cent value 4999.5. -/
def meetingC5 : Meeting :=
  { meetingC2 with
    edited_duration := some (mkRat 1 2)
    custom_rate := some (mkRat 9999 100) }

/-- C1 counterexample invoices: a void record holding the first matching
    line item, followed by a draft record also matching. -/
def invsC1a : List StripeInvoice :=
  [⟨"void", [⟨some "meeting [ID:abc123] services"⟩]⟩,
   ⟨"draft", [⟨some "later [ID:abc123]"⟩]⟩]

/-- C1 counterexample invoices: the same void first match, followed by an
    open record also matching. -/
def invsC1b : List StripeInvoice :=
  [⟨"void", [⟨some "meeting [ID:abc123] services"⟩]⟩,
   ⟨"open", [⟨some "later [ID:abc123]"⟩]⟩]

/-- Trivial external collaborators for witnesses: timestamp parsing and
    formatting always fail (exercising the fallbacks), the invoice fetch
    returns no records. -/
def extTrivial : Externals :=
  { parseTs := fun _ => none
    fmtDT := fun _ => none
    fetch := fun _ => .ok [] }

/-- Witness event for C10: a start timestamp but no end field at all. -/
def evNoEnd : GEvent :=
  { start := some ⟨some "2024-01-01T10:00:00", none⟩
    finish := none
    summary := some "Planning"
    attendees := [⟨some "alice@x.com"⟩]
    organizer := none
    description := none }

/-- External collaborators whose invoice fetch always fails. -/
def extFail : Externals :=
  { parseTs := fun _ => none
    fmtDT := fun _ => none
    fetch := fun _ => .error "stripe unavailable" }

/-- Roster customer of the C7 scenario. -/
def custJane : CustomerInfo :=
  { id := "cus_9"
    email := "jane@co.com"
    name := "Jane Doe"
    created := 0
    metadata := [] }

/-- Event of the C7 scenario: no attendees or organizer, the description
    holds the customer name and email. -/
def evJane : GEvent :=
  { start := some ⟨some "2025-01-10T10:00:00", none⟩
    finish := some ⟨some "2025-01-10T11:00:00", none⟩
    summary := some "Intro"
    attendees := []
    organizer := none
    description := some "Jane Doe jane@co.com" }

/-- Roster customer for the C3 witness run. -/
def custAlice : CustomerInfo :=
  { id := "cus_1"
    email := "a@x.com"
    name := "Alice"
    created := 0
    metadata := [] }

/-- Calendar event for the C3 witness run: Alice attends. -/
def evAlice : GEvent :=
  { start := some ⟨some "2024-01-01T10:00:00", none⟩
    finish := some ⟨some "2024-01-01T11:00:00", none⟩
    summary := some "Mtg"
    attendees := [⟨some "a@x.com"⟩]
    organizer := none
    description := none }

/-- Externals for the C3 witness run: the fetch returns one draft invoice
    whose line item embeds the identifier of the Alice meeting. -/
def extDraft : Externals :=
  { parseTs := fun _ => none
    fmtDT := fun _ => none
    fetch := fun _ => .ok [⟨"draft",
      [⟨some ("[ID:" ++ generate_meeting_id "a@x.com" "2024-01-01T10:00:00" "Mtg" ++ "]")⟩]⟩] }

/-- The meeting produced by the C3 witness run: already drafted, so its
    selection flag is false at construction. -/
def mDraftWitness : Meeting :=
  { id := generate_meeting_id "a@x.com" "2024-01-01T10:00:00" "Mtg"
    summary := "Mtg"
    date := "2024-01-01"
    time := "Unknown time"
    duration := 1
    start_time := "2024-01-01T10:00:00"
    end_time := "2024-01-01T11:00:00"
    invoice_status := "drafted"
    selected := false
    synopsis := ""
    edited_start_time := none
    edited_duration := none
    custom_rate := none
    is_edited := false
    detection_source := "attendee"
    is_manually_assigned := false }

/-- The unassociated meeting of the C6 counterexample state. -/
def unassocU1 : UnassociatedMeeting :=
  { id := "u1"
    summary := "Mystery Sync"
    date := "2025-01-12"
    time := "10:00 AM"
    duration := 1
    start_time := "2025-01-12T10:00:00"
    end_time := "2025-01-12T11:00:00"
    attendees := ["bob@z.com"]
    description := ""
    selected := false
    synopsis := ""
    assigned_customer := none
    is_manually_assigned := false }

/-- The roster customer receiving the C6 assignment. -/
def custCarol : CustomerInfo :=
  { id := "cus_7"
    email := "carol@y.com"
    name := "Carol"
    created := 0
    metadata := [] }

/-- The C6 counterexample state: one unassociated meeting, no customers
    with meetings yet. -/
def stateC6 : RecState :=
  { customers_with_meetings := []
    unassociated_meetings := [unassocU1] }

/-! From here on: theorems.  First the bridge lemmas showing the
    kernel-reducible rational wrappers agree with the Mathlib field
    operations, then sanity examples, then the claim theorems. -/

/-- qMul agrees with rational multiplication. -/
theorem qMul_eq (a b : ℚ) : qMul a b = a * b := by
  have ha : (a.den : ℚ) ≠ 0 := by exact_mod_cast a.den_nz
  have hb : (b.den : ℚ) ≠ 0 := by exact_mod_cast b.den_nz
  rw [qMul, Rat.mkRat_eq_div]
  push_cast
  rw [← div_mul_div_comm, Rat.num_div_den, Rat.num_div_den]

/-- qAdd agrees with rational addition. -/
theorem qAdd_eq (a b : ℚ) : qAdd a b = a + b := by
  have ha : (a.den : ℚ) ≠ 0 := by exact_mod_cast a.den_nz
  have hb : (b.den : ℚ) ≠ 0 := by exact_mod_cast b.den_nz
  rw [qAdd, Rat.mkRat_eq_div]
  push_cast
  rw [eq_comm]
  conv_lhs => rw [← Rat.num_div_den a, ← Rat.num_div_den b]
  rw [div_add_div _ _ ha hb]
  congr 1
  ring

/-- qSub agrees with rational subtraction. -/
theorem qSub_eq (a b : ℚ) : qSub a b = a - b := by
  have ha : (a.den : ℚ) ≠ 0 := by exact_mod_cast a.den_nz
  have hb : (b.den : ℚ) ≠ 0 := by exact_mod_cast b.den_nz
  rw [qSub, Rat.mkRat_eq_div]
  push_cast
  rw [eq_comm]
  conv_lhs => rw [← Rat.num_div_den a, ← Rat.num_div_den b]
  rw [div_sub_div _ _ ha hb]
  congr 1
  ring

/-- qDiv agrees with rational division for a positive divisor (the only
    divisors appearing in the embedding are the constants 3600, 100 and
    positive powers of ten). -/
theorem qDiv_eq (a b : ℚ) (hb : 0 < b) : qDiv a b = a / b := by
  have ha : (a.den : ℚ) ≠ 0 := by exact_mod_cast a.den_nz
  have hbn : 0 < b.num := Rat.num_pos.mpr hb
  have hif : (if b.num < 0 then (-1 : Int) else 1) = 1 := by
    simp [not_lt.mpr hbn.le]
  have hb0 : b ≠ 0 := hb.ne.symm
  have hbden : (b.den : ℚ) ≠ 0 := by exact_mod_cast b.den_nz
  have haa : (a.num : ℚ) = a * a.den := (div_eq_iff ha).mp (Rat.num_div_den a)
  have hbb : (b.num : ℚ) = b * b.den := (div_eq_iff hbden).mp (Rat.num_div_den b)
  have hnab : ((b.num.natAbs : Nat) : ℚ) = (b.num : ℚ) := by
    rw [Int.cast_natAbs]
    exact_mod_cast abs_of_nonneg hbn.le
  rw [qDiv, hif, Rat.mkRat_eq_div]
  push_cast
  rw [hnab, haa, hbb, mul_one]
  field_simp
  rw [haa, hbb]
  ring

example : String.mk (md5HexChars (strToBytes "")) = "d41d8cd98f00b204e9800998ecf8427e" := by decide

example : String.mk (md5HexChars (strToBytes "abc")) = "900150983cd24fb0d6963f7d28e17f72" := by decide

example : generate_meeting_id "a@x.com" "2024-01-01T10:00:00" "Mtg" = "ff25dc4ad4ec" := by decide

example : parse_duration_input "1.5" = .ok (some (mkRat 3 2)) := by decide

example : parse_duration_input "2 HR" = .ok (some 2) := by decide

example : parse_duration_input "0.5 hours" = .ok (some (mkRat 1 2)) := by decide

example : parse_duration_input "  " = .ok none := by decide

example : parse_duration_input "24" = .ok (some 24) := by decide

example : parse_duration_input "0" = .error "Duration must be between 0 and 24 hours" := by decide

example : parse_duration_input "25" = .error "Duration must be between 0 and 24 hours" := by decide

example : parse_duration_input "two hours" = .error "Unable to parse duration: two" := by decide

example : parse_duration_input "1h1" = .ok (some 11) := by decide

/-- The listing-display amount follows the spec amount function. -/
theorem displayAmount_eq (m : Meeting) (rate : ℚ) : displayAmount m rate = amount m rate := by
  simp only [displayAmount, amount, effective_duration, effective_rate]
  cases m.edited_duration <;> cases m.custom_rate <;> simp [Option.getD]

/-- The confirmation-total amount follows the spec amount function. -/
theorem confirmationAmount_eq (m : Meeting) (rate : ℚ) :
    confirmationAmount m rate = amount m rate := by
  simp only [confirmationAmount, amount, effective_duration, effective_rate]
  cases m.edited_duration <;> cases m.custom_rate <;> simp [Option.getD]

/-- The emitted line-item amount follows the spec amount function. -/
theorem lineItemAmount_eq (m : Meeting) (rate : ℚ) : lineItemAmount m rate = amount m rate := by
  simp only [lineItemAmount, amount, effective_duration, effective_rate]
  cases m.edited_duration <;> cases m.custom_rate <;> simp [Option.getD]

/-- C2: for every meeting and customer default rate, the billed amount is
    effective duration times effective rate (edited duration over base,
    custom rate over default), computed identically in the listing display,
    the confirmation totals and the emitted line items; and the scenario
    meeting with base duration 1.0, edited duration 2.5, custom rate 300
    and default rate 150 yields amount 750.00. -/
theorem claim2_amount_precedence :
    (∀ (m : Meeting) (rate : ℚ),
        displayAmount m rate = amount m rate ∧
        confirmationAmount m rate = amount m rate ∧
        lineItemAmount m rate = amount m rate) ∧
    amount meetingC2 150 = 750 := by
  refine ⟨fun m rate => ⟨displayAmount_eq m rate, confirmationAmount_eq m rate,
    lineItemAmount_eq m rate⟩, by decide⟩

/-- C5 counterexample: at half an hour of 99.99 per hour the exact cent
    value is 4999.5; the emission transmits 4999 (truncation) while the
    claimed half-up rounding gives 5000. -/
theorem claim5_counterexample :
    lineItemCents meetingC5 0 = 4999 ∧
    roundHalfUpCents (amount meetingC5 0) = 5000 ∧
    lineItemCents meetingC5 0 ≠ roundHalfUpCents (amount meetingC5 0) :=
  ⟨by decide, by decide, by decide⟩

/-- C5 amended: the integer minor-unit amount transmitted for a line item
    equals amount() times 100 truncated toward zero (Python int), not
    rounded half-up. -/
theorem claim5_cents_truncation :
    ∀ (m : Meeting) (rate : ℚ),
      lineItemCents m rate = pythonIntTrunc (qMul (amount m rate) 100) := by
  intro m rate
  simp only [lineItemCents, lineItemAmount_eq]

/-- Fixed-width little-endian byte decomposition has the stated width. -/
theorem toBytesLE_length : ∀ (n x : Nat), (toBytesLE n x).length = n
  | 0, _ => rfl
  | n + 1, x => by simp [toBytesLE, toBytesLE_length n]

/-- An MD5 digest always has 16 bytes. -/
theorem md5Bytes_length (msg : List Nat) : (md5Bytes msg).length = 16 := by
  simp [md5Bytes, toBytesLE_length]

/-- Rendering bytes as hex doubles the length. -/
theorem hexFoldr_length : ∀ (l : List Nat),
    (l.foldr (fun b acc => byteToHexChars b ++ acc) []).length = 2 * l.length := by
  intro l
  induction l with
  | nil => rfl
  | cons b rest ih =>
      simp only [List.foldr_cons, List.length_append, ih, List.length_cons]
      have h2 : (byteToHexChars b).length = 2 := rfl
      omega

/-- An MD5 hex digest always has 32 characters. -/
theorem md5HexChars_length (msg : List Nat) : (md5HexChars msg).length = 32 := by
  simp [md5HexChars, hexFoldr_length, md5Bytes_length]

/-- C4: the meeting identity is a pure function of the participant email,
    the start timestamp and the title: equal argument triples give equal
    identifiers, the identifier always has the fixed short length 12, and
    the embedding takes no other state. -/
theorem claim4_identity_pure :
    ∀ (e s t e2 s2 t2 : String), e = e2 → s = s2 → t = t2 →
      generate_meeting_id e s t = generate_meeting_id e2 s2 t2 ∧
      (generate_meeting_id e s t).length = 12 := by
  intro e s t e2 s2 t2 he hs ht
  subst he hs ht
  refine ⟨rfl, ?_⟩
  show (String.mk ((md5HexChars (strToBytes (e ++ "|" ++ s ++ "|" ++ t))).take 12)).length = 12
  have h32 := md5HexChars_length (strToBytes (e ++ "|" ++ s ++ "|" ++ t))
  simp [String.length, List.length_take, h32]

/-- Witness for C4 at a concrete triple. -/
theorem claim4_identity_pure_witness :
    generate_meeting_id "alice@x.com" "2025-01-15T14:00:00" "Strategy Session" =
      generate_meeting_id "alice@x.com" "2025-01-15T14:00:00" "Strategy Session" ∧
    (generate_meeting_id "alice@x.com" "2025-01-15T14:00:00" "Strategy Session").length = 12 :=
  claim4_identity_pure "alice@x.com" "2025-01-15T14:00:00" "Strategy Session"
    "alice@x.com" "2025-01-15T14:00:00" "Strategy Session" rfl rfl rfl

/-- C8 counterexample: on input 1h1 the source parser removes the internal
    h and accepts 11.0 hours, while the claimed suffix-stripping parser
    leaves 1h1 in place and fails with the parse-failure message. -/
theorem claim8_counterexample :
    parse_duration_input "1h1" = .ok (some 11) ∧
    parse_duration_spec_claim "1h1" = .error "Unable to parse duration: 1h1" ∧
    parse_duration_input "1h1" ≠ parse_duration_spec_claim "1h1" :=
  ⟨by decide, by decide, by decide⟩

/-- C8 amended: the duration parser returns none on empty or whitespace
    input, and otherwise removes every occurrence of hours, hour, hr, h
    anywhere in the lower-cased trimmed input (longest pattern first, not
    only as a suffix), parses the remainder as a decimal accepting exactly
    (0, 24], and fails with the range-violation message for parseable
    values outside that range and a distinct parse-failure message for
    unparseable text. -/
theorem claim8_duration_parser_amended :
    ∀ (s : String), parse_duration_input s = parse_duration_spec_amended s := by
  intro s
  have hcheck : ∀ (u : String), durationFloatCheck u = durationFloatCheckSpec u := by
    intro u
    unfold durationFloatCheck durationFloatCheckSpec
    cases pythonFloat u with
    | none => rfl
    | some d =>
        by_cases h0 : 0 < d
        · by_cases h24 : d ≤ 24
          · have hb : (decide (d ≤ 0) || decide (24 < d)) = false := by
              simp [not_le.mpr h0, not_lt.mpr h24]
            simp [hb, h0, h24]
          · have hb : (decide (d ≤ 0) || decide (24 < d)) = true := by
              simp [not_le.mp h24]
            simp [hb, h24]
        · have hb : (decide (d ≤ 0) || decide (24 < d)) = true := by
            simp [not_lt.mp h0]
          simp [hb, h0]
  unfold parse_duration_input parse_duration_spec_amended
  by_cases h : pyStrip s = ""
  · rw [if_pos h, if_pos h]
  · rw [if_neg h, if_neg h, hcheck]

/-- Per-invoice characterisation of the line scan: it decides only when
    the invoice status is draft, open, paid or uncollectible and some line
    item contains the identifier; otherwise it falls through. -/
theorem scanLines_eq (mid st : String) : ∀ (lines : List InvoiceLineItem),
    scanLines mid st lines =
      if decisive st && lines.any (fun item => pyIn mid item.description) then
        some (if st == "draft" then "drafted" else "sent")
      else none := by
  intro lines
  induction lines with
  | nil => simp [scanLines]
  | cons item rest ih =>
      simp only [scanLines, List.any_cons]
      by_cases hp : pyIn mid item.description = true
      case neg =>
        have hp2 : pyIn mid item.description = false := by simpa using hp
        simp [hp2, ih]
      case pos =>
        by_cases hdraft : (st == "draft") = true
        case pos =>
          have hdec : decisive st = true := by simp [decisive, hdraft]
          simp [hp, hdraft, hdec]
        case neg =>
          have hdraft2 : (st == "draft") = false := by simpa using hdraft
          by_cases hb2 : (st == "open" || st == "paid" || st == "uncollectible") = true
          case pos =>
            have hdec : decisive st = true := by
              simp only [decisive, hdraft2, Bool.false_or]
              exact hb2
            simp [hp, hdraft2, hb2, hdec]
          case neg =>
            have hb22 : (st == "open" || st == "paid" || st == "uncollectible") = false := by
              simpa using hb2
            have hdec : decisive st = false := by
              simp only [decisive, hdraft2, Bool.false_or]
              exact hb22
            simp [hp, hdraft2, hb22, hdec, ih]

/-- The invoice scan agrees with the amended first-decisive-match rule. -/
theorem scanInvoices_eq_spec (mid : String) : ∀ (invs : List StripeInvoice),
    scanInvoices mid invs = scanInvoicesAmendedSpec mid invs := by
  intro invs
  induction invs with
  | nil => rfl
  | cons inv rest ih =>
      simp only [scanInvoices, scanInvoicesAmendedSpec, scanLines_eq]
      cases hd : decisive inv.status && inv.lines.any (fun item => pyIn mid item.description) with
      | true => simp [hd]
      | false => simp [hd, ih]

/-- C1 counterexample: two invoice lists whose first identifier-containing
    line item is the same line of the same void-status record resolve to
    different results (drafted and sent), so the first matching line item
    does not determine the result by its parent lifecycle state; a record
    in a state outside draft, open, paid, uncollectible is skipped. -/
theorem claim1_counterexample :
    firstMatchStatus "abc123" invsC1a = some "void" ∧
    firstMatchStatus "abc123" invsC1b = some "void" ∧
    scanInvoices "abc123" invsC1a = "drafted" ∧
    scanInvoices "abc123" invsC1b = "sent" ∧
    scanInvoices "abc123" invsC1a ≠ scanInvoices "abc123" invsC1b :=
  ⟨by decide, by decide, by decide, by decide, by decide⟩

/-- C1 amended: the status resolver scans records in order and the first
    line item containing the identifier whose parent record state is draft
    (giving drafted) or open, paid or uncollectible (giving sent, the
    finalized state) determines the result; matching line items under
    records in any other lifecycle state are skipped; when no such line
    item exists across all fetched records the result is not_invoiced
    (unbilled). -/
theorem claim1_status_resolver_amended :
    ∀ (fetch : String → Except String (List StripeInvoice)) (customer_id meeting_id : String),
      check_meeting_invoice_status fetch customer_id meeting_id =
        scanInvoicesAmendedSpec meeting_id (get_customer_invoices (fetch customer_id)) := by
  intro fetch customer_id meeting_id
  exact scanInvoices_eq_spec meeting_id _

/-- C10: an event lacking a start timestamp or lacking an end timestamp is
    skipped whole by reconciliation: the per-event body leaves the state
    unchanged, so it produces no Meeting for any customer and no
    UnassociatedMeeting, even in include-all-meetings mode. -/
theorem claim10_skip_missing_timestamps :
    ∀ (ext : Externals) (customers : List CustomerInfo) (include_all : Bool) (ev : GEvent),
      eventStartTime ev = none ∨ eventEndTime ev = none →
      (∀ (s : RecState), processEvent ext customers include_all s ev = s) ∧
      (∀ (evs1 evs2 : List GEvent),
        find_customers_with_meetings ext customers (evs1 ++ ev :: evs2) include_all =
          find_customers_with_meetings ext customers (evs1 ++ evs2) include_all) := by
  intro ext customers include_all ev hev
  have hstep : ∀ (s : RecState), processEvent ext customers include_all s ev = s := by
    intro s
    unfold processEvent
    rcases hev with h | h
    · rw [h]
    · rw [h]
      cases eventStartTime ev <;> rfl
  refine ⟨hstep, ?_⟩
  intro evs1 evs2
  unfold find_customers_with_meetings
  rw [List.foldl_append, List.foldl_append, List.foldl_cons, hstep]

/-- Witness for C10 at a concrete event lacking its end field. -/
theorem claim10_skip_missing_timestamps_witness :
    processEvent extTrivial [] true ⟨[], []⟩ evNoEnd = ⟨[], []⟩ :=
  (claim10_skip_missing_timestamps extTrivial [] true evNoEnd (Or.inr rfl)).1 ⟨[], []⟩

/-- Folding pointwise-equal step functions gives equal results. -/
theorem foldl_congr_fn {α β : Type} (f g : α → β → α) (h : ∀ a b, f a b = g a b) :
    ∀ (l : List β) (a : α), l.foldl f a = l.foldl g a := by
  intro l
  induction l with
  | nil => intro a; rfl
  | cons x xs ih => intro a; simp only [List.foldl_cons, h, ih]

/-- The status resolver depends on the fetch only through the degraded
    invoice list. -/
theorem check_congr (f g : String → Except String (List StripeInvoice))
    (h : ∀ c, get_customer_invoices (f c) = get_customer_invoices (g c)) :
    ∀ (cid mid : String),
      check_meeting_invoice_status f cid mid = check_meeting_invoice_status g cid mid := by
  intro cid mid
  unfold check_meeting_invoice_status
  rw [h]

/-- The participant-matching loop depends on the externals only through
    the degraded invoice lists. -/
theorem matchParticipants_congr (ext ext2 : Externals)
    (h : ∀ c, get_customer_invoices (ext.fetch c) = get_customer_invoices (ext2.fetch c)) :
    ∀ (customers : List CustomerInfo) (summary d t : String) (dur : ℚ) (st et : String)
      (ds : List (String × String)) (emails : List String)
      (cwm0 : List (String × CustomerData)),
      matchParticipants ext customers summary d t dur st et ds emails cwm0 =
        matchParticipants ext2 customers summary d t dur st et ds emails cwm0 := by
  intro customers summary d t dur st et ds emails cwm0
  unfold matchParticipants
  apply foldl_congr_fn
  intro acc email
  cases hc : customerByEmail customers email with
  | none => simp [hc]
  | some customer => simp only [hc, check_congr ext.fetch ext2.fetch h]

/-- The per-event body depends on the externals only through the parse,
    format and degraded fetch results. -/
theorem processEvent_congr (ext ext2 : Externals)
    (hp : ext.parseTs = ext2.parseTs) (hf : ext.fmtDT = ext2.fmtDT)
    (h : ∀ c, get_customer_invoices (ext.fetch c) = get_customer_invoices (ext2.fetch c)) :
    ∀ (customers : List CustomerInfo) (inc : Bool) (s : RecState) (ev : GEvent),
      processEvent ext customers inc s ev = processEvent ext2 customers inc s ev := by
  intro customers inc s ev
  unfold processEvent
  cases h1 : eventStartTime ev with
  | none => rfl
  | some st =>
      cases h2 : eventEndTime ev with
      | none => rfl
      | some et =>
          simp only [hp, hf, matchParticipants_congr ext ext2 h]

/-- Reconciliation depends on the externals only through the parse, format
    and degraded fetch results. -/
theorem findCustomers_fetch_congr (ext ext2 : Externals)
    (hp : ext.parseTs = ext2.parseTs) (hf : ext.fmtDT = ext2.fmtDT)
    (h : ∀ c, get_customer_invoices (ext.fetch c) = get_customer_invoices (ext2.fetch c)) :
    ∀ (customers : List CustomerInfo) (events : List GEvent) (inc : Bool),
      find_customers_with_meetings ext customers events inc =
        find_customers_with_meetings ext2 customers events inc := by
  intro customers events inc
  unfold find_customers_with_meetings
  exact foldl_congr_fn _ _ (processEvent_congr ext ext2 hp hf h customers inc) events ⟨[], []⟩

/-- C9: a failing billing-record fetch for one customer is caught: the
    record list degrades to the empty list, every meeting of that customer
    resolves to not_invoiced, and the whole reconciliation result equals
    the one obtained with an empty record list for that customer, so other
    customers are unaffected and the run does not halt. -/
theorem claim9_fetch_failure_degrades :
    ∀ (ext : Externals) (cid e : String), ext.fetch cid = .error e →
      (∀ (mid : String), check_meeting_invoice_status ext.fetch cid mid = "not_invoiced") ∧
      (∀ (customers : List CustomerInfo) (events : List GEvent) (inc : Bool),
        find_customers_with_meetings ext customers events inc =
          find_customers_with_meetings
            { ext with fetch := fun c => if c = cid then .ok [] else ext.fetch c }
            customers events inc) := by
  intro ext cid e hfe
  constructor
  · intro mid
    unfold check_meeting_invoice_status
    rw [hfe]
    rfl
  · intro customers events inc
    refine findCustomers_fetch_congr ext
      { ext with fetch := fun c => if c = cid then .ok [] else ext.fetch c } rfl rfl
      (fun c => ?_) customers events inc
    by_cases hc : c = cid
    · subst hc
      rw [hfe]
      simp [get_customer_invoices]
    · simp [hc]

/-- Witness for C9: with an always-failing fetch, a concrete status lookup
    resolves to not_invoiced. -/
theorem claim9_fetch_failure_degrades_witness :
    check_meeting_invoice_status extFail.fetch "cus_1" "abc123def456" = "not_invoiced" :=
  (claim9_fetch_failure_degrades extFail "cus_1" "stripe unavailable" rfl).1 "abc123def456"

/-- Boolean membership agrees with list membership for strings. -/
theorem contains_iff_mem (l : List String) (e : String) : l.contains e = true ↔ e ∈ l := by
  simp [List.contains, List.elem_iff]

/-- Updating a key makes lookup of that key return the new value. -/
theorem dictGet_dictSet_self (d : List (String × String)) (k v : String) :
    dictGet (dictSet d k v) k = some v := by
  induction d with
  | nil => simp [dictSet, dictGet]
  | cons p rest ih =>
      by_cases hk : p.1 == k
      · cases p
        simp_all [dictSet, dictGet]
      · cases p
        simp_all [dictSet, dictGet]

/-- Updating a key leaves lookups of other keys unchanged. -/
theorem dictGet_dictSet_other (d : List (String × String)) (k v k2 : String) (h : k2 ≠ k) :
    dictGet (dictSet d k v) k2 = dictGet d k2 := by
  have hkk : (k == k2) = false := by
    simp only [beq_eq_false_iff_ne, ne_eq]
    exact fun he => h he.symm
  induction d with
  | nil => simp [dictSet, dictGet, hkk]
  | cons p rest ih =>
      cases p with
      | mk k1 v1 =>
          by_cases hk : (k1 == k) = true
          · have hk1 : k1 = k := by simpa using hk
            subst hk1
            simp [dictSet, dictGet, hkk]
          · have hk' : (k1 == k) = false := by simpa using hk
            by_cases h12 : (k1 == k2) = true
            · simp [dictSet, dictGet, hk', h12]
            · have h12' : (k1 == k2) = false := by simpa using h12
              simp only [dictSet, hk', if_false, dictGet, List.find?, h12']
              exact ih

/-- A description-channel step on an already-present email is a no-op. -/
theorem descStep_mem (acc : List String × List (String × String)) (x : String)
    (hx : acc.1.contains x = true) : descStep acc x = acc := by
  unfold descStep
  rw [if_pos hx]

/-- A description-channel step on a new email appends it, tagged. -/
theorem descStep_new (acc : List String × List (String × String)) (x : String)
    (hx : acc.1.contains x = false) :
    descStep acc x = (acc.1 ++ [x], dictSet acc.2 x "description") := by
  unfold descStep
  rw [if_neg (fun hc => Bool.false_ne_true (hx ▸ hc))]

/-- The description fold keeps every existing participant and never
    changes its provenance tag. -/
theorem descFold_preserve :
    ∀ (L : List String) (acc : List String × List (String × String)) (e : String),
      e ∈ acc.1 →
      e ∈ (L.foldl descStep acc).1 ∧
      dictGet (L.foldl descStep acc).2 e = dictGet acc.2 e := by
  intro L
  induction L with
  | nil => exact fun acc e he => ⟨he, rfl⟩
  | cons x xs ih =>
      intro acc e he
      simp only [List.foldl_cons]
      by_cases hx : acc.1.contains x = true
      · rw [descStep_mem acc x hx]
        exact ih acc e he
      · have hxe : x ≠ e := fun hel => hx (by rw [hel]; exact (contains_iff_mem _ _).mpr he)
        have hx' : acc.1.contains x = false := by simpa using hx
        rw [descStep_new acc x hx']
        obtain ⟨h1, h2⟩ := ih (acc.1 ++ [x], dictSet acc.2 x "description") e
          (List.mem_append_left _ he)
        refine ⟨h1, ?_⟩
        rw [h2]
        exact dictGet_dictSet_other acc.2 x "description" e (fun hh => hxe hh.symm)

/-- Every participant produced by the description fold was either already
    present or carries the description provenance tag. -/
theorem descFold_new :
    ∀ (L : List String) (acc : List String × List (String × String)) (e : String),
      e ∈ (L.foldl descStep acc).1 →
      e ∈ acc.1 ∨ dictGet (L.foldl descStep acc).2 e = some "description" := by
  intro L
  induction L with
  | nil => exact fun acc e he => Or.inl he
  | cons x xs ih =>
      intro acc e he
      simp only [List.foldl_cons] at he ⊢
      rcases ih (descStep acc x) e he with h1 | h2
      · by_cases hx : acc.1.contains x = true
        · rw [descStep_mem acc x hx] at h1
          exact Or.inl h1
        · have hx' : acc.1.contains x = false := by simpa using hx
          rw [descStep_new acc x hx'] at h1
          rcases List.mem_append.mp h1 with hin | hx1
          · exact Or.inl hin
          · have hex : e = x := by simpa using hx1
            subst hex
            right
            have hmem : e ∈ (descStep acc e).1 := by
              rw [descStep_new acc e hx']
              exact List.mem_append_right _ (List.mem_singleton.mpr rfl)
            have hpres := (descFold_preserve xs (descStep acc e) e hmem).2
            rw [hpres, descStep_new acc e hx']
            exact dictGet_dictSet_self acc.2 e "description"
      · exact Or.inr h2

/-- C7: the free-text channels (regex email scan and name-and-email
    proximity scan of the description) contribute only emails not already
    collected from the attendee and organizer fields, and the provenance
    map keeps the attendee/organizer tag of every channel-1 email while
    tagging every free-text contribution description; on the scenario
    event whose description is Jane Doe jane@co.com with that roster
    customer and no attendee or organizer, the extractor yields exactly
    jane@co.com tagged description. -/
theorem claim7_participant_extractor :
    ∀ (ev : GEvent) (customers : List CustomerInfo),
      (∀ (email : String), email ∈ (extractChannel1 ev).1 →
        email ∈ (extractParticipants ev customers).1 ∧
        dictGet (extractParticipants ev customers).2 email =
          dictGet (extractChannel1 ev).2 email) ∧
      (∀ (email : String), email ∈ (extractParticipants ev customers).1 →
        email ∉ (extractChannel1 ev).1 →
        dictGet (extractParticipants ev customers).2 email = some "description") ∧
      extractParticipants evJane [custJane] =
        (["jane@co.com"], [("jane@co.com", "description")]) := by
  intro ev customers
  refine ⟨?_, ?_, by decide⟩
  · intro email he
    unfold extractParticipants
    by_cases hd : ev.description.getD "" = ""
    · rw [if_pos hd]
      exact ⟨he, rfl⟩
    · rw [if_neg hd]
      exact descFold_preserve _ (extractChannel1 ev) email he
  · intro email he hne
    unfold extractParticipants at he ⊢
    by_cases hd : ev.description.getD "" = ""
    · rw [if_pos hd] at he
      exact absurd he hne
    · rw [if_neg hd] at he ⊢
      rcases descFold_new _ (extractChannel1 ev) email he with h1 | h2
      · exact absurd h1 hne
      · exact h2

/-- Witness for C7: on the scenario event, jane@co.com is a participant
    found only by the free-text channels, and both conjuncts apply to it
    concretely: it is not a channel-1 email and its tag is description. -/
theorem claim7_participant_extractor_witness :
    dictGet (extractParticipants evJane [custJane]).2 "jane@co.com" = some "description" :=
  (claim7_participant_extractor evJane [custJane]).2.1 "jane@co.com"
    (by decide) (by decide)

/-- A fold preserves any invariant its step preserves. -/
theorem foldl_inv {α β : Type} (f : α → β → α) (P : α → Prop)
    (hstep : ∀ (a : α) (b : β), P a → P (f a b)) :
    ∀ (l : List β) (a : α), P a → P (l.foldl f a) := by
  intro l
  induction l with
  | nil => exact fun a ha => ha
  | cons x xs ih => exact fun a ha => ih (f a x) (hstep a x ha)

/-- Adding a meeting preserves a per-meeting property held by the
    dictionary and by the new meeting. -/
theorem addMeeting_pres (P : Meeting → Prop) :
    ∀ (cwm : List (String × CustomerData)) (cid : String) (cust : CustomerInfo) (mi : Meeting),
      (∀ p ∈ cwm, ∀ m ∈ p.2.meetings, P m) → P mi →
      ∀ p ∈ addMeeting cwm cid cust mi, ∀ m ∈ p.2.meetings, P m := by
  intro cwm
  induction cwm with
  | nil =>
      intro cid cust mi _ hmi p hp m hm
      simp only [addMeeting, List.mem_singleton] at hp
      subst hp
      simp only [List.mem_singleton] at hm
      subst hm
      exact hmi
  | cons q rest ih =>
      intro cid cust mi h hmi p hp m hm
      cases q with
      | mk k d =>
          unfold addMeeting at hp
          by_cases hk : (k == cid) = true
          · rw [if_pos hk] at hp
            rcases List.mem_cons.mp hp with he | hr
            · subst he
              simp only at hm
              rcases List.mem_append.mp hm with h1 | h2
              · exact h (k, d) (List.mem_cons_self _ _) m h1
              · rw [List.mem_singleton.mp h2]
                exact hmi
            · exact h p (List.mem_cons_of_mem _ hr) m hm
          · rw [if_neg hk] at hp
            rcases List.mem_cons.mp hp with he | hr
            · subst he
              exact h (k, d) (List.mem_cons_self _ _) m hm
            · exact ih cid cust mi (fun p hp => h p (List.mem_cons_of_mem _ hp)) hmi p hr m hm

/-- Every meeting constructed during reconciliation has its selection flag
    equal to the not-yet-invoiced test on its status. -/
theorem find_customers_selected_default (ext : Externals) (customers : List CustomerInfo)
    (events : List GEvent) (inc : Bool) :
    ∀ p ∈ (find_customers_with_meetings ext customers events inc).customers_with_meetings,
      ∀ m ∈ p.2.meetings, m.selected = (m.invoice_status == "not_invoiced") := by
  unfold find_customers_with_meetings
  refine foldl_inv _
    (fun s : RecState => ∀ p ∈ s.customers_with_meetings, ∀ m ∈ p.2.meetings,
      m.selected = (m.invoice_status == "not_invoiced")) ?_ events ⟨[], []⟩ ?_
  · intro s ev hs
    unfold processEvent
    cases eventStartTime ev with
    | none => exact hs
    | some st =>
        cases eventEndTime ev with
        | none => exact hs
        | some et =>
            by_cases hempty : (st == "" || et == "") = true
            · simp only [hempty, if_true]
              exact hs
            · have hempty2 : (st == "" || et == "") = false := by simpa using hempty
              simp only [hempty2, Bool.false_eq_true, if_false]
              have hmatch : ∀ p ∈ (matchParticipants ext customers (ev.summary.getD "Meeting")
                  (meetingDateTimeOf ext.fmtDT st).1 (meetingDateTimeOf ext.fmtDT st).2
                  (calculate_meeting_duration ext.parseTs st et) st et
                  (extractParticipants ev customers).2 (extractParticipants ev customers).1
                  s.customers_with_meetings).1,
                  ∀ m ∈ p.2.meetings, m.selected = (m.invoice_status == "not_invoiced") := by
                unfold matchParticipants
                refine (foldl_inv _
                  (fun acc : List (String × CustomerData) × Bool =>
                    ∀ p ∈ acc.1, ∀ m ∈ p.2.meetings,
                      m.selected = (m.invoice_status == "not_invoiced")) ?_ _ _ hs)
                intro acc email hacc
                cases customerByEmail customers email with
                | none => exact hacc
                | some customer =>
                    simp only
                    exact addMeeting_pres _ acc.1 customer.id customer _ hacc rfl
              by_cases hfound : (!(matchParticipants ext customers (ev.summary.getD "Meeting")
                  (meetingDateTimeOf ext.fmtDT st).1 (meetingDateTimeOf ext.fmtDT st).2
                  (calculate_meeting_duration ext.parseTs st et) st et
                  (extractParticipants ev customers).2 (extractParticipants ev customers).1
                  s.customers_with_meetings).2 && inc) = true
              · simp only [hfound, if_true]
                exact hmatch
              · have hfound2 := Bool.not_eq_true _ ▸ hfound
                simp only [Bool.not_eq_true] at hfound2
                simp only [hfound2, Bool.false_eq_true, if_false]
                exact hmatch
  · intro p hp
    simp at hp

/-- Toggling an index cannot select an already-invoiced meeting. -/
theorem toggleAt_pres :
    ∀ (ms : List Meeting) (idx : Nat),
      (∀ m ∈ ms, m.selected = true → m.invoice_status = "not_invoiced") →
      ∀ m ∈ toggleAt ms idx, m.selected = true → m.invoice_status = "not_invoiced" := by
  intro ms
  induction ms with
  | nil => intro idx _ m hm; simp [toggleAt] at hm
  | cons a rest ih =>
      intro idx h m hm hsel
      cases idx with
      | zero =>
          simp only [toggleAt] at hm
          rcases List.mem_cons.mp hm with he | hr
          · by_cases hst : (a.invoice_status != "not_invoiced") = true
            · rw [if_pos hst] at he
              subst he
              exact h _ (List.mem_cons_self _ _) hsel
            · have hst2 : a.invoice_status = "not_invoiced" := by
                simpa using hst
              rw [if_neg hst] at he
              subst he
              exact hst2
          · exact h m (List.mem_cons_of_mem _ hr) hsel
      | succ n =>
          simp only [toggleAt] at hm
          rcases List.mem_cons.mp hm with he | hr
          · subst he
            exact h _ (List.mem_cons_self _ _) hsel
          · exact ih n (fun x hx => h x (List.mem_cons_of_mem _ hx)) m hr hsel

/-- No selection command can select an already-invoiced meeting. -/
theorem applyCommand_pres (cwm : List (String × CustomerData)) (c : UserCommand)
    (h : ∀ p ∈ cwm, ∀ m ∈ p.2.meetings, m.selected = true → m.invoice_status = "not_invoiced") :
    ∀ p ∈ applyCommand cwm c, ∀ m ∈ p.2.meetings,
      m.selected = true → m.invoice_status = "not_invoiced" := by
  cases c with
  | toggle cid idx =>
      intro p hp m hm hsel
      simp only [applyCommand] at hp
      rcases List.mem_map.mp hp with ⟨q, hq, hfq⟩
      by_cases hk : (q.1 == cid) = true
      · rw [if_pos hk] at hfq
        subst hfq
        exact toggleAt_pres q.2.meetings idx (h q hq) m hm hsel
      · rw [if_neg hk] at hfq
        subst hfq
        exact h q hq m hm hsel
  | selectAllUninvoiced =>
      intro p hp m hm hsel
      simp only [applyCommand] at hp
      rcases List.mem_map.mp hp with ⟨q, hq, hfq⟩
      subst hfq
      simp only at hm
      rcases List.mem_map.mp hm with ⟨m0, hm0, hfm⟩
      by_cases hst : (m0.invoice_status == "not_invoiced") = true
      · rw [if_pos hst] at hfm
        subst hfm
        simpa using hst
      · rw [if_neg hst] at hfm
        subst hfm
        exact h q hq m0 hm0 hsel
  | deselectAll =>
      intro p hp m hm hsel
      simp only [applyCommand] at hp
      rcases List.mem_map.mp hp with ⟨q, hq, hfq⟩
      subst hfq
      simp only at hm
      rcases List.mem_map.mp hm with ⟨m0, hm0, hfm⟩
      subst hfm
      simp at hsel

/-- C3: a meeting constructed by reconciliation has its selection flag set
    exactly when its status is not_invoiced (unbilled), and after any
    sequence of toggle-by-number, select-all and deselect-all commands a
    meeting whose status is drafted or sent (finalized) still has its
    selection flag false. -/
theorem claim3_selection_invariant :
    ∀ (ext : Externals) (customers : List CustomerInfo) (events : List GEvent) (inc : Bool)
      (cmds : List UserCommand),
      (∀ p ∈ (find_customers_with_meetings ext customers events inc).customers_with_meetings,
        ∀ m ∈ p.2.meetings, m.selected = (m.invoice_status == "not_invoiced")) ∧
      (∀ p ∈ cmds.foldl applyCommand
          (find_customers_with_meetings ext customers events inc).customers_with_meetings,
        ∀ m ∈ p.2.meetings,
          m.invoice_status = "drafted" ∨ m.invoice_status = "sent" → m.selected = false) := by
  intro ext customers events inc cmds
  refine ⟨find_customers_selected_default ext customers events inc, ?_⟩
  have hinit : ∀ p ∈ (find_customers_with_meetings ext customers events
      inc).customers_with_meetings,
      ∀ m ∈ p.2.meetings, m.selected = true → m.invoice_status = "not_invoiced" := by
    intro p hp m hm hsel
    have := find_customers_selected_default ext customers events inc p hp m hm
    rw [hsel] at this
    exact beq_iff_eq.mp this.symm
  have hfold := foldl_inv applyCommand
    (fun cwm => ∀ p ∈ cwm, ∀ m ∈ p.2.meetings,
      m.selected = true → m.invoice_status = "not_invoiced")
    (fun cwm c hc => applyCommand_pres cwm c hc) cmds _ hinit
  intro p hp m hm hst
  cases hsel : m.selected with
  | false => rfl
  | true =>
      have := hfold p hp m hm hsel
      rcases hst with h1 | h1 <;> rw [h1] at this <;> exact absurd this (by decide)

/-- Witness for C3: after selecting all and toggling the drafted meeting
    of the concrete run, its selection flag is still false. -/
theorem claim3_selection_invariant_witness : mDraftWitness.selected = false :=
  (claim3_selection_invariant extDraft [custAlice] [evAlice] false
      [UserCommand.selectAllUninvoiced, UserCommand.toggle "cus_1" 0]).2
    ("cus_1", ⟨custAlice, [mDraftWitness]⟩) (by decide) mDraftWitness (by decide)
    (Or.inl (by decide))

/-- Replacing an element preserves the list length. -/
theorem listSet_length {α : Type} :
    ∀ (l : List α) (i : Nat) (a : α), (listSet l i a).length = l.length := by
  intro l
  induction l with
  | nil => intro i a; rfl
  | cons x rest ih =>
      intro i a
      cases i with
      | zero => rfl
      | succ n => simp [listSet, ih]

/-- Replacing an element at a valid index makes lookup return it. -/
theorem get_listSet_self {α : Type} :
    ∀ (l : List α) (i : Nat) (a : α), i < l.length → (listSet l i a).get? i = some a := by
  intro l
  induction l with
  | nil => intro i a h; simp at h
  | cons x rest ih =>
      intro i a h
      cases i with
      | zero => rfl
      | succ n =>
          simp only [listSet, List.get?]
          exact ih n a (by simpa using h)

/-- After adding a meeting, the customer entry exists and ends with it. -/
theorem lookupCwm_addMeeting :
    ∀ (cwm : List (String × CustomerData)) (cid : String) (cust : CustomerInfo) (mi : Meeting),
      ∃ data, lookupCwm (addMeeting cwm cid cust mi) cid = some data ∧
        data.meetings.getLast? = some mi := by
  intro cwm
  induction cwm with
  | nil =>
      intro cid cust mi
      refine ⟨⟨cust, [mi]⟩, ?_, rfl⟩
      simp [addMeeting, lookupCwm, List.find?]
  | cons q rest ih =>
      intro cid cust mi
      cases q with
      | mk k d =>
          by_cases hk : (k == cid) = true
          · refine ⟨⟨d.customer, d.meetings ++ [mi]⟩, ?_, List.getLast?_concat _⟩
            simp [addMeeting, hk, lookupCwm, List.find?]
          · have hk2 : (k == cid) = false := by simpa using hk
            obtain ⟨data, h1, h2⟩ := ih cid cust mi
            refine ⟨data, ?_, h2⟩
            simp only [addMeeting, hk2, Bool.false_eq_true, if_false]
            simpa [lookupCwm, List.find?, hk2] using h1

/-- C6 counterexample: after assigning the only unassociated meeting to a
    roster customer, the meeting is still in the unassociated-meetings
    list (marked assigned), not removed from it. -/
theorem claim6_counterexample :
    ((applyAssign stateC6 0 "carol@y.com" [custCarol]).unassociated_meetings.map
        (fun u => u.id)) = ["u1"] ∧
    ((applyAssign stateC6 0 "carol@y.com" [custCarol]).unassociated_meetings.map
        (fun u => u.assigned_customer)) = [some custCarol] ∧
    (applyAssign stateC6 0 "carol@y.com" [custCarol]).unassociated_meetings ≠ [] :=
  ⟨by decide, by decide, by decide⟩

/-- C6 amended: with a valid unassociated index and a roster customer
    matching the given email, the assign command appends to that customer
    a Meeting copy with selection true, manual-assignment set and status
    not_invoiced, and marks the unassociated entry as assigned in place:
    the unassociated-meetings list keeps its length and the entry is not
    removed. -/
theorem claim6_assign_amended :
    ∀ (state : RecState) (uidx : Nat) (email : String) (all_customers : List CustomerInfo)
      (u : UnassociatedMeeting) (cust : CustomerInfo),
      state.unassociated_meetings.get? uidx = some u →
      all_customers.find? (fun c => pyLower c.email == email) = some cust →
      (applyAssign state uidx email all_customers).unassociated_meetings.length =
        state.unassociated_meetings.length ∧
      (applyAssign state uidx email all_customers).unassociated_meetings.get? uidx =
        some { u with assigned_customer := some cust, is_manually_assigned := true } ∧
      ∃ data,
        lookupCwm (applyAssign state uidx email all_customers).customers_with_meetings
            cust.id = some data ∧
        data.meetings.getLast? = some (mkAssignedMeeting u) ∧
        (mkAssignedMeeting u).selected = true ∧
        (mkAssignedMeeting u).is_manually_assigned = true ∧
        (mkAssignedMeeting u).invoice_status = "not_invoiced" := by
  intro state uidx email all_customers u cust hget hfind
  have happ : applyAssign state uidx email all_customers =
      { customers_with_meetings :=
          addMeeting state.customers_with_meetings cust.id cust (mkAssignedMeeting u)
        unassociated_meetings := listSet state.unassociated_meetings uidx
          { u with assigned_customer := some cust, is_manually_assigned := true } } := by
    unfold applyAssign
    rw [hget, hfind]
  have hlt : uidx < state.unassociated_meetings.length := by
    by_contra hge
    rw [List.get?_eq_none.mpr (le_of_not_lt hge)] at hget
    exact absurd hget (by simp)
  rw [happ]
  refine ⟨listSet_length _ _ _, get_listSet_self _ _ _ hlt, ?_⟩
  obtain ⟨data, h1, h2⟩ :=
    lookupCwm_addMeeting state.customers_with_meetings cust.id cust (mkAssignedMeeting u)
  exact ⟨data, h1, h2, rfl, rfl, rfl⟩

/-- Witness for C6 at the concrete counterexample state. -/
theorem claim6_assign_amended_witness :
    (applyAssign stateC6 0 "carol@y.com" [custCarol]).unassociated_meetings.length =
      stateC6.unassociated_meetings.length :=
  (claim6_assign_amended stateC6 0 "carol@y.com" [custCarol] unassocU1 custCarol rfl
    (by decide)).1
